import Mathlib

/-!
A verification development for the II-20 interactive multimedia analytics
core.  The definitions below are a shallow embedding of the Python sources
(`aimodel/AIModel.py`, `aimodel/Bucket.py`, `aimodel/SeenImages.py`,
`aimodel/DiscardPile.py`, `data/CollectionIndex.py`): Python dictionaries
become association lists, exceptions become explicit error values returned
next to the (possibly partially mutated) state, numpy floats become
rationals, and opaque numeric routines (the SVM, float `sqrt`) become
abstract environment parameters.
-/

/-- Association-list lookup, modelling a Python dict read (`d[k]`);
returns the value of the first entry with the given key. -/
def alookup {α β : Type} [DecidableEq α] (k : α) : List (α × β) → Option β
  | [] => none
  | (k₁, v) :: rest => if k₁ = k then some v else alookup k rest

/-- Association-list update (`d[k] = f (d[k])`): rewrites the value of the
first entry with key `k`, leaving the list unchanged when `k` is absent
(the Python code only updates keys that are present; an absent key would
be a `KeyError`, which the theorems exclude by hypothesis). -/
def aupdate {α β : Type} [DecidableEq α] (k : α) (f : β → β) : List (α × β) → List (α × β)
  | [] => []
  | (k₁, v) :: rest => if k₁ = k then (k₁, f v) :: rest else (k₁, v) :: aupdate k f rest

/-- Association-list deletion, modelling Python `del d[k]`. -/
def aerase {α β : Type} [DecidableEq α] (k : α) : List (α × β) → List (α × β)
  | [] => []
  | (k₁, v) :: rest => if k₁ = k then rest else (k₁, v) :: aerase k rest

theorem alookup_aupdate_self {α β : Type} [DecidableEq α] (k : α) (f : β → β) :
    ∀ l : List (α × β), alookup k (aupdate k f l) = (alookup k l).map f := by
  intro l
  induction l with
  | nil => simp [alookup, aupdate]
  | cons hd tl ih =>
    obtain ⟨k₁, v⟩ := hd
    by_cases hk : k₁ = k
    · simp [alookup, aupdate, hk]
    · simp [alookup, aupdate, hk, ih]

theorem alookup_aupdate_other {α β : Type} [DecidableEq α] {k k' : α} (hkk : k' ≠ k)
    (f : β → β) : ∀ l : List (α × β), alookup k' (aupdate k f l) = alookup k' l := by
  intro l
  induction l with
  | nil => simp [alookup, aupdate]
  | cons hd tl ih =>
    obtain ⟨k₁, v⟩ := hd
    by_cases hk : k₁ = k
    · subst hk
      simp [alookup, aupdate, Ne.symm hkk]
    · by_cases hk' : k₁ = k'
      · simp [alookup, aupdate, hk, hk', hkk]
      · simp [alookup, aupdate, hk, hk', ih]

theorem alookup_eq_none_of_not_mem {α β : Type} [DecidableEq α] (k : α) :
    ∀ l : List (α × β), k ∉ l.map Prod.fst → alookup k l = none := by
  intro l
  induction l with
  | nil => intro _; rfl
  | cons hd tl ih =>
    obtain ⟨k₁, v⟩ := hd
    intro h
    simp only [List.map_cons, List.mem_cons, not_or] at h
    have hne : ¬ k₁ = k := fun hh => h.1 hh.symm
    simp [alookup, hne, ih h.2]

theorem alookup_aerase_self {α β : Type} [DecidableEq α] (k : α) :
    ∀ l : List (α × β), (l.map Prod.fst).Nodup → alookup k (aerase k l) = none := by
  intro l
  induction l with
  | nil => simp [alookup, aerase]
  | cons hd tl ih =>
    obtain ⟨k₁, v⟩ := hd
    intro hnd
    simp only [List.map_cons, List.nodup_cons] at hnd
    by_cases hk : k₁ = k
    · subst hk
      simp only [aerase, if_pos rfl]
      exact alookup_eq_none_of_not_mem k₁ tl hnd.1
    · simp only [aerase, if_neg hk, alookup, if_neg hk]
      exact ih hnd.2

theorem alookup_aerase_other {α β : Type} [DecidableEq α] {k k' : α} (hkk : k' ≠ k) :
    ∀ l : List (α × β), alookup k' (aerase k l) = alookup k' l := by
  intro l
  induction l with
  | nil => simp [alookup, aerase]
  | cons hd tl ih =>
    obtain ⟨k₁, v⟩ := hd
    by_cases hk : k₁ = k
    · subst hk
      simp [alookup, aerase, Ne.symm hkk]
    · by_cases hk' : k₁ = k'
      · simp [alookup, aerase, hk, hk', hkk]
      · simp [alookup, aerase, hk, hk', ih]

/-! ## SeenImages (`aimodel/SeenImages.py`)

`SeenImages` wraps the set of image IDs shown to the user.  `update` adds a
batch of images (Python `set.update`) and then raises
`DatasetExhaustedError` when the seen count has reached the collection
size; the raise happens after the mutation, so the embedding returns the
updated state together with the raised flag. -/

structure SeenImages where
  seen : Finset Nat
  n : Nat
deriving DecidableEq

/-- `SeenImages.update(new_seen)`: `self.seen.update(new_seen)` followed by
`if len(self) == self.n: raise DatasetExhaustedError`.  The `Bool`
component records whether the error is raised. -/
def SeenImages.update (s : SeenImages) (newSeen : List Nat) : SeenImages × Bool :=
  let s₁ : SeenImages := { s with seen := s.seen ∪ newSeen.toFinset }
  (s₁, s₁.seen.card == s₁.n)

/-- C5 counterexample: with a collection of size 1, the update that first
fills the seen set raises, and the very next update (with nothing new to
add) raises again, because the code re-tests `len(self) == self.n` on
every call.  The claim that the error is raised exactly once, at the
crossing call, is therefore false. -/
theorem C5_seen_raise_counterexample :
    ((SeenImages.update ⟨∅, 1⟩ [0]).2 = true)
    ∧ (((SeenImages.update ⟨∅, 1⟩ [0]).1.update []).2 = true) := by
  constructor <;> decide

/-- C5 (amended): the seen set only grows, updating with already-seen
images is the identity, and `update` raises `DatasetExhaustedError`
exactly when the post-update seen count equals the collection size — at
the crossing call and again at every later call while the count stays
there. -/
theorem C5_seen_monotone_amended (s : SeenImages) (l : List Nat) :
    s.seen ⊆ (s.update l).1.seen
    ∧ ((∀ x ∈ l, x ∈ s.seen) → (s.update l).1 = s)
    ∧ ((s.update l).2 = true ↔ (s.seen ∪ l.toFinset).card = s.n) := by
  refine ⟨?_, ?_, ?_⟩
  · exact Finset.subset_union_left
  · intro h
    have hsub : l.toFinset ⊆ s.seen := by
      intro x hx
      exact h x (List.mem_toFinset.mp hx)
    have : s.seen ∪ l.toFinset = s.seen := Finset.union_eq_left.mpr hsub
    cases s
    simp [SeenImages.update, this]
  · simp [SeenImages.update]

theorem C5_seen_monotone_amended_witness :
    (∀ x ∈ [0, 1], x ∈ ({0, 1, 2} : Finset Nat))
    ∧ (SeenImages.update ⟨{0, 1, 2}, 4⟩ [0, 1]).1 = ⟨{0, 1, 2}, 4⟩ :=
  ⟨by decide, (C5_seen_monotone_amended ⟨{0, 1, 2}, 4⟩ [0, 1]).2.1 (by decide)⟩

/-! ## Bucket confidences (`aimodel/Bucket.py`, `_confidence` and
`_bucket_image_confidences`)

`_bucket_image_confidences` scores all bucket members, takes
`best_img_svm_score = np.max(scores)` and maps `_confidence` over the
scores, where `_confidence(s) = min(max(s / best, 0.0), 1.0)`.  SVM scores
are embedded as rationals; the division-by-zero float behaviour when the
best score is exactly zero is excluded by hypothesis. -/

/-- `np.max` over a score list (the source only applies it to the
nonempty member list of a retrained bucket). -/
def npMax : List ℚ → ℚ
  | [] => 0
  | h :: t => t.foldl max h

/-- `Bucket._confidence(svm_scores)` with `best_img_svm_score` passed
explicitly: `min(max(s / best, 0.0), 1.0)` for each score. -/
def Bucket.confidence (bestImgSvmScore : ℚ) (svmScores : List ℚ) : List ℚ :=
  svmScores.map (fun s => min (max (s / bestImgSvmScore) 0) 1)

/-- `Bucket._bucket_image_confidences`: recompute the best member score
and every member confidence from the member scores. -/
def Bucket.bucketImageConfidences (svmScores : List ℚ) : ℚ × List ℚ :=
  let best := npMax svmScores
  (best, Bucket.confidence best svmScores)

theorem foldl_max_le_self (t : List ℚ) (a : ℚ) : a ≤ t.foldl max a := by
  induction t generalizing a with
  | nil => simp
  | cons h tl ih => exact le_trans (le_max_left a h) (ih (max a h))

theorem foldl_max_le (t : List ℚ) (a x : ℚ) (hx : x ∈ t) : x ≤ t.foldl max a := by
  induction t generalizing a with
  | nil => cases hx
  | cons h tl ih =>
    rcases List.mem_cons.mp hx with h₁ | h₁
    · subst h₁
      exact le_trans (le_max_right a x) (foldl_max_le_self tl (max a x))
    · exact ih (max a h) h₁

theorem foldl_max_mem (t : List ℚ) (a : ℚ) : t.foldl max a = a ∨ t.foldl max a ∈ t := by
  induction t generalizing a with
  | nil => exact Or.inl rfl
  | cons h tl ih =>
    rcases ih (max a h) with h₁ | h₁
    · rcases max_cases a h with ⟨he, _⟩ | ⟨he, _⟩
      · rw [List.foldl_cons, h₁, he]
        exact Or.inl rfl
      · rw [List.foldl_cons, h₁, he]
        exact Or.inr (List.mem_cons_self h tl)
    · exact Or.inr (List.mem_cons_of_mem h h₁)

/-- `(l.map f).getD i d = f (l.getD i d₀)` for indices in range. -/
theorem getD_map_lt {α β : Type} (f : α → β) (d₁ : α) (d₂ : β) (l : List α) (i : Nat)
    (hi : i < l.length) :
    (l.map f).getD i d₂ = f (l.getD i d₁) := by
  induction l generalizing i with
  | nil => cases hi
  | cons h tl ih =>
    cases i with
    | zero => simp [List.getD]
    | succ j =>
      simp only [List.map_cons]
      have hj : j < tl.length := Nat.lt_of_succ_lt_succ hi
      simpa [List.getD] using ih j hj

/-- C6: after a retrain of a bucket with at least one member (and a
nonzero best score, excluding the float division-by-zero edge), the
recomputed best score is attained by a member and bounds all member
scores, every member confidence lies in `[0, 1]`, and any member whose
score equals the best score has confidence exactly `1`. -/
theorem C6_confidence_bounds (svmScores : List ℚ) (hne : svmScores ≠ [])
    (hbest : npMax svmScores ≠ 0) :
    (npMax svmScores ∈ svmScores ∧ ∀ s ∈ svmScores, s ≤ npMax svmScores)
    ∧ (∀ c ∈ (Bucket.bucketImageConfidences svmScores).2, 0 ≤ c ∧ c ≤ 1)
    ∧ (∀ i, i < svmScores.length → svmScores.getD i 0 = npMax svmScores →
        (Bucket.bucketImageConfidences svmScores).2.getD i 0 = 1) := by
  refine ⟨⟨?_, ?_⟩, ?_, ?_⟩
  · match svmScores, hne with
    | h :: t, _ =>
      rcases foldl_max_mem t h with h₁ | h₁
      · rw [npMax, h₁]
        exact List.mem_cons_self h t
      · exact List.mem_cons_of_mem h h₁
  · intro s hs
    match svmScores, hne with
    | h :: t, _ =>
      rcases List.mem_cons.mp hs with h₁ | h₁
      · rw [npMax, h₁]
        exact foldl_max_le_self t h
      · exact foldl_max_le t h s h₁
  · intro c hc
    simp only [Bucket.bucketImageConfidences, Bucket.confidence, List.mem_map] at hc
    obtain ⟨s, _, hs⟩ := hc
    constructor
    · rw [← hs]
      exact le_min (le_max_right _ 0) zero_le_one
    · rw [← hs]
      exact min_le_right _ 1
  · intro i hi hieq
    have hmap := getD_map_lt (fun s => min (max (s / npMax svmScores) 0) 1) 0 0 svmScores i hi
    simp only [Bucket.bucketImageConfidences, Bucket.confidence]
    rw [hmap, hieq]
    simp [div_self hbest]

theorem C6_confidence_bounds_witness :
    (([2, 1, -1] : List ℚ) ≠ [] ∧ npMax [2, 1, -1] ≠ 0)
    ∧ (∀ c ∈ (Bucket.bucketImageConfidences [2, 1, -1]).2, 0 ≤ c ∧ c ≤ 1) :=
  ⟨⟨by decide, by decide⟩,
   (C6_confidence_bounds [2, 1, -1] (by decide) (by decide)).2.1⟩

/-! ## AIModel.suggest (`aimodel/AIModel.py`, lines 642-705)

The orchestrator's suggestion routine.  The request is a Python dict
`bucket id -> count` (embedded as an association list in insertion
order); `-1` is the randomized-exploration sentinel.  The per-bucket
suggestion lists and the stateful `RandomizedExplorer` are opaque
collaborators, abstracted in `SuggestEnv`: `bucketSuggs b c` is what
`self.buckets[b].suggest(c)` returns for a trained bucket (an untrained
bucket raises `BucketNotActiveError` instead), and `randExp k c` is what
the `RandomizedExplorer` produces on its `k`-th call of this round (its
cache state is summarized by the number of prior calls).  The source
mutates the caller's dict (`del sugg_request[-1]`), so the embedding
returns the post-call request next to the suggestion list. -/

structure Sugg where
  image : Nat
  bucket : Int
deriving DecidableEq, Repr

structure SuggestEnv where
  ordering : Int → Nat
  trained : Int → Bool
  bucketSuggs : Int → Nat → List Sugg
  randExp : Nat → Nat → List Sugg

def RANDOM_EXPLORE_REQUEST : Int := -1

/-- The `for b, _ in bucket_orderings:` loop of `AIModel.suggest`: walk the
sorted bucket keys, skip zero requests, take the bucket's suggestions
(or explorer output for an untrained bucket), and top up from the
explorer when `len(suggs) < sugg_request[b]` — note that the source
compares the *accumulated* list length with the per-bucket count. -/
def suggestLoop (env : SuggestEnv) (req : List (Int × Nat)) :
    List Int → List Sugg → Nat → List Sugg × Nat
  | [], acc, calls => (acc, calls)
  | b :: rest, acc, calls =>
    let c := (alookup b req).getD 0
    if c = 0 then suggestLoop env req rest acc calls
    else
      let p₁ : List Sugg × Nat :=
        if env.trained b then (acc ++ env.bucketSuggs b c, calls)
        else (acc ++ env.randExp calls c, calls + 1)
      let p₂ : List Sugg × Nat :=
        if p₁.1.length < c then (p₁.1 ++ env.randExp p₁.2 (c - p₁.1.length), p₁.2 + 1)
        else p₁
      suggestLoop env req rest p₂.1 p₂.2

/-- The `bucket_orderings` list of `AIModel.suggest`: pair every remaining
requested bucket with its display ordering and sort by the ordering
(Python's stable `list.sort(key=...)`). -/
def bucketOrderingsSorted (env : SuggestEnv) (req : List (Int × Nat)) : List (Int × Nat) :=
  List.insertionSort (fun p q : Int × Nat => p.2 ≤ q.2)
    (req.map (fun p => (p.1, env.ordering p.1)))

structure SuggestResult where
  suggs : List Sugg
  request : List (Int × Nat)
  calls : Nat
deriving DecidableEq

/-- `AIModel.suggest(sugg_request)`: handle the exploration sentinel
first (its explorer output is appended last), sort the remaining
requested buckets by display ordering, run the suggestion loop, and
append the sentinel suggestions. -/
def AIModel.suggest (env : SuggestEnv) (req : List (Int × Nat)) : SuggestResult :=
  let pre : List Sugg × List (Int × Nat) × Nat :=
    match alookup RANDOM_EXPLORE_REQUEST req with
    | some nRandexp => (env.randExp 0 nRandexp, aerase RANDOM_EXPLORE_REQUEST req, 1)
    | none => ([], req, 0)
  let bucketOrderings := bucketOrderingsSorted env pre.2.1
  let body := suggestLoop env pre.2.1 (bucketOrderings.map Prod.fst) [] pre.2.2
  ⟨body.1 ++ pre.1, pre.2.1, body.2⟩

/-- The exploration-sentinel suggestions of a round (computed first by
the source, appended last). -/
def randexpSuggs (env : SuggestEnv) (req : List (Int × Nat)) : List Sugg :=
  match alookup RANDOM_EXPLORE_REQUEST req with
  | some nRandexp => env.randExp 0 nRandexp
  | none => []

/-- Bookkeeping variant of `suggestLoop` that records, for every
processed bucket, the segment of the suggestion list it contributed
(bucket or explorer output plus the explorer top-up); `len` carries the
length of the list accumulated so far. -/
def suggestSegs (env : SuggestEnv) (req : List (Int × Nat)) :
    List Int → Nat → Nat → List (Int × List Sugg) × Nat
  | [], _, calls => ([], calls)
  | b :: rest, len, calls =>
    let c := (alookup b req).getD 0
    if c = 0 then suggestSegs env req rest len calls
    else
      let p₁ : List Sugg × Nat :=
        if env.trained b then (env.bucketSuggs b c, calls)
        else (env.randExp calls c, calls + 1)
      let p₂ : List Sugg × Nat :=
        if len + p₁.1.length < c then
          (p₁.1 ++ env.randExp p₁.2 (c - (len + p₁.1.length)), p₁.2 + 1)
        else p₁
      let rest' := suggestSegs env req rest (len + p₂.1.length) p₂.2
      ((b, p₂.1) :: rest'.1, rest'.2)

/-- C10: `AIModel.suggest` mutates its caller-supplied request mapping —
when the exploration sentinel `-1` is a key of the request, the call
deletes that key from the caller's dict (`del sugg_request[-1]`) while
every other key keeps its value. -/
theorem C10_suggest_request_mutation (env : SuggestEnv) (req : List (Int × Nat)) (n : Nat)
    (hnd : (req.map Prod.fst).Nodup)
    (hsent : alookup RANDOM_EXPLORE_REQUEST req = some n) :
    (AIModel.suggest env req).request = aerase RANDOM_EXPLORE_REQUEST req
    ∧ alookup RANDOM_EXPLORE_REQUEST (AIModel.suggest env req).request = none
    ∧ ∀ k, k ≠ RANDOM_EXPLORE_REQUEST →
        alookup k (AIModel.suggest env req).request = alookup k req := by
  have hreq : (AIModel.suggest env req).request = aerase RANDOM_EXPLORE_REQUEST req := by
    simp [AIModel.suggest, hsent]
  refine ⟨hreq, ?_, ?_⟩
  · rw [hreq]
    exact alookup_aerase_self RANDOM_EXPLORE_REQUEST req hnd
  · intro k hk
    rw [hreq]
    exact alookup_aerase_other hk req

theorem C10_suggest_request_mutation_witness :
    (([((-1 : Int), 4), (1, 2)].map Prod.fst).Nodup
      ∧ alookup RANDOM_EXPLORE_REQUEST [((-1 : Int), 4), (1, 2)] = some 4)
    ∧ alookup RANDOM_EXPLORE_REQUEST
        (AIModel.suggest ⟨fun _ => 0, fun _ => true, fun _ _ => [], fun _ _ => []⟩
          [((-1 : Int), 4), (1, 2)]).request = none :=
  ⟨⟨by decide, by decide⟩,
   (C10_suggest_request_mutation ⟨fun _ => 0, fun _ => true, fun _ _ => [], fun _ _ => []⟩
      [((-1 : Int), 4), (1, 2)] 4 (by decide) (by decide)).2.1⟩

/-- The concrete scenario exhibiting the top-up defect of
`AIModel.suggest`: two trained buckets with display orders 1 and 2;
bucket 1 delivers its full request of 2 suggestions, bucket 2 delivers
only 1 of its requested 3, and the randomized explorer has plenty of
unseen images to offer (`randExp` always returns the full count). -/
def envC3 : SuggestEnv where
  ordering := fun b => b.toNat
  trained := fun _ => true
  bucketSuggs := fun b n =>
    if b = 1 then (List.range (min n 2)).map (fun i => ⟨101 + i, 1⟩) else [⟨201, 2⟩]
  randExp := fun k n => (List.range n).map (fun i => ⟨900 + 10 * k + i, 0⟩)

/-- C3: the per-bucket top-up does not happen.  Bucket 2 returned 1 of
its requested 3 suggestions and the explorer could supply the shortfall
(here it returns any requested count in full), yet the suggestion list
contains no explorer item and the explorer is never called
(`calls = 0`): the source compares the accumulated list length
`len(suggs)` — already 3 after bucket 1's two suggestions plus bucket
2's one — against the per-bucket count `sugg_request[b] = 3`. -/
theorem C3_suggest_topup_bug_eval :
    (AIModel.suggest envC3 [(1, 2), (2, 3)]).suggs
        = [⟨101, 1⟩, ⟨102, 1⟩, ⟨201, 2⟩]
    ∧ (AIModel.suggest envC3 [(1, 2), (2, 3)]).calls = 0
    ∧ (envC3.bucketSuggs 2 3).length = 1
    ∧ (envC3.randExp 0 2).length = 2 := by
  refine ⟨?_, ?_, ?_, ?_⟩ <;> decide

theorem alookup_perm {α β : Type} [DecidableEq α] {l₁ l₂ : List (α × β)}
    (h : l₁.Perm l₂) (k : α) :
    (l₁.map Prod.fst).Nodup → alookup k l₁ = alookup k l₂ := by
  induction h with
  | nil => intro _; rfl
  | cons x h ih =>
    obtain ⟨k₁, v⟩ := x
    intro hnd
    simp only [List.map_cons, List.nodup_cons] at hnd
    by_cases hk : k₁ = k
    · simp [alookup, hk]
    · simp [alookup, hk, ih hnd.2]
  | swap x y l =>
    obtain ⟨k₁, v₁⟩ := x
    obtain ⟨k₂, v₂⟩ := y
    intro hnd
    simp only [List.map_cons, List.nodup_cons, List.mem_cons, not_or] at hnd
    by_cases h₂ : k₂ = k
    · by_cases h₁ : k₁ = k
      · exact absurd (h₂.trans h₁.symm) hnd.1.1
      · simp [alookup, h₁, h₂]
    · by_cases h₁ : k₁ = k
      · simp [alookup, h₁, h₂]
      · simp [alookup, h₁, h₂]
  | trans h₁ h₂ ih₁ ih₂ =>
    intro hnd
    have hndMid := ((h₁.map Prod.fst).nodup_iff).mp hnd
    exact (ih₁ hnd).trans (ih₂ hndMid)

theorem aerase_perm {α β : Type} [DecidableEq α] {l₁ l₂ : List (α × β)}
    (h : l₁.Perm l₂) (k : α) :
    (l₁.map Prod.fst).Nodup → (aerase k l₁).Perm (aerase k l₂) := by
  induction h with
  | nil => intro _; exact List.Perm.refl _
  | cons x h ih =>
    obtain ⟨k₁, v⟩ := x
    intro hnd
    simp only [List.map_cons, List.nodup_cons] at hnd
    by_cases hk : k₁ = k
    · simpa [aerase, hk] using h
    · simpa [aerase, hk] using (ih hnd.2).cons (k₁, v)
  | swap x y l =>
    obtain ⟨k₁, v₁⟩ := x
    obtain ⟨k₂, v₂⟩ := y
    intro hnd
    simp only [List.map_cons, List.nodup_cons, List.mem_cons, not_or] at hnd
    by_cases h₂ : k₂ = k
    · by_cases h₁ : k₁ = k
      · exact absurd (h₂.trans h₁.symm) hnd.1.1
      · simp only [aerase, if_pos h₂, if_neg h₁]
        exact List.Perm.refl _
    · by_cases h₁ : k₁ = k
      · simp only [aerase, if_pos h₁, if_neg h₂]
        exact List.Perm.refl _
      · simp only [aerase, if_neg h₁, if_neg h₂]
        exact List.Perm.swap _ _ _
  | trans h₁ h₂ ih₁ ih₂ =>
    intro hnd
    have hndMid := ((h₁.map Prod.fst).nodup_iff).mp hnd
    exact (ih₁ hnd).trans (ih₂ hndMid)

theorem aerase_sublist {α β : Type} [DecidableEq α] (k : α) :
    ∀ l : List (α × β), (aerase k l).Sublist l := by
  intro l
  induction l with
  | nil => simp [aerase]
  | cons hd tl ih =>
    obtain ⟨k₁, v⟩ := hd
    by_cases hk : k₁ = k
    · simp only [aerase, if_pos hk]
      exact List.sublist_cons_self (k₁, v) tl
    · simp only [aerase, if_neg hk]
      exact ih.cons₂ (k₁, v)

theorem suggestLoop_congr (env : SuggestEnv) {r₁ r₂ : List (Int × Nat)}
    (hl : ∀ b, alookup b r₁ = alookup b r₂) :
    ∀ (ks : List Int) (acc : List Sugg) (calls : Nat),
      suggestLoop env r₁ ks acc calls = suggestLoop env r₂ ks acc calls := by
  intro ks
  induction ks with
  | nil => intro acc calls; rfl
  | cons b rest ih =>
    intro acc calls
    simp only [suggestLoop, hl b]
    by_cases hc : (alookup b r₂).getD 0 = 0
    · simp only [if_pos hc]
      exact ih acc calls
    · simp only [if_neg hc]
      exact ih _ _

theorem suggestLoop_eq_segs (env : SuggestEnv) (req : List (Int × Nat)) :
    ∀ (ks : List Int) (acc : List Sugg) (calls : Nat),
      suggestLoop env req ks acc calls
        = (acc ++ ((suggestSegs env req ks acc.length calls).1.map Prod.snd).flatten,
           (suggestSegs env req ks acc.length calls).2) := by
  intro ks
  induction ks with
  | nil => intro acc calls; simp [suggestLoop, suggestSegs]
  | cons b rest ih =>
    intro acc calls
    by_cases hc : (alookup b req).getD 0 = 0
    · simp only [suggestLoop, suggestSegs, if_pos hc]
      exact ih acc calls
    · by_cases ht : env.trained b
      · by_cases htop : acc.length + (env.bucketSuggs b ((alookup b req).getD 0)).length
            < (alookup b req).getD 0
        · simp only [suggestLoop, suggestSegs, if_neg hc, if_pos ht, List.length_append,
            if_pos htop]
          rw [ih]
          simp [List.length_append, Nat.add_assoc]
        · simp only [suggestLoop, suggestSegs, if_neg hc, if_pos ht, List.length_append,
            if_neg htop]
          rw [ih]
          simp [List.length_append]
      · by_cases htop : acc.length + (env.randExp calls ((alookup b req).getD 0)).length
            < (alookup b req).getD 0
        · simp only [suggestLoop, suggestSegs, if_neg hc, if_neg ht, List.length_append,
            if_pos htop]
          rw [ih]
          simp [List.length_append, Nat.add_assoc]
        · simp only [suggestLoop, suggestSegs, if_neg hc, if_neg ht, List.length_append,
            if_neg htop]
          rw [ih]
          simp [List.length_append]

theorem suggestSegs_keys_sublist (env : SuggestEnv) (req : List (Int × Nat)) :
    ∀ (ks : List Int) (len calls : Nat),
      ((suggestSegs env req ks len calls).1.map Prod.fst).Sublist ks := by
  intro ks
  induction ks with
  | nil => intro len calls; simp [suggestSegs]
  | cons b rest ih =>
    intro len calls
    by_cases hc : (alookup b req).getD 0 = 0
    · simp only [suggestSegs, if_pos hc]
      exact (ih len calls).cons b
    · simp only [suggestSegs, if_neg hc, List.map_cons]
      exact (ih _ _).cons₂ b

theorem suggestSegs_untrained (env : SuggestEnv) (req : List (Int × Nat)) :
    ∀ (ks : List Int) (len calls : Nat) (p : Int × List Sugg),
      p ∈ (suggestSegs env req ks len calls).1 → env.trained p.1 = false →
      ∀ s ∈ p.2, ∃ k m, s ∈ env.randExp k m := by
  intro ks
  induction ks with
  | nil => intro len calls p hp; cases hp
  | cons b rest ih =>
    intro len calls p hp htr s hs
    by_cases hc : (alookup b req).getD 0 = 0
    · simp only [suggestSegs, if_pos hc] at hp
      exact ih len calls p hp htr s hs
    · simp only [suggestSegs, if_neg hc] at hp
      rcases List.mem_cons.mp hp with hhd | htl
      · subst hhd
        simp only [htr, Bool.false_eq_true, if_false] at hs
        by_cases htop : len + (env.randExp calls ((alookup b req).getD 0)).length
            < (alookup b req).getD 0
        · simp only [if_pos htop] at hs
          rcases List.mem_append.mp hs with h₁ | h₁
          · exact ⟨calls, (alookup b req).getD 0, h₁⟩
          · exact ⟨calls + 1, _, h₁⟩
        · simp only [if_neg htop] at hs
          exact ⟨calls, (alookup b req).getD 0, hs⟩
      · exact ih _ _ p htl htr s hs

/-- The request mapping as the suggestion loop sees it: the exploration
sentinel entry (`-1`) is deleted first (`del sugg_request[-1]`) when
present; the rest of the dict is untouched. -/
def requestBody (req : List (Int × Nat)) : List (Int × Nat) :=
  match alookup RANDOM_EXPLORE_REQUEST req with
  | some _ => aerase RANDOM_EXPLORE_REQUEST req
  | none => req

theorem alookup_of_mem_nodup {α β : Type} [DecidableEq α] :
    ∀ {l : List (α × β)}, (l.map Prod.fst).Nodup → ∀ p ∈ l, alookup p.1 l = some p.2 := by
  intro l
  induction l with
  | nil => intro _ p hp; cases hp
  | cons hd tl ih =>
    obtain ⟨k₁, v⟩ := hd
    intro hnd p hp
    simp only [List.map_cons, List.nodup_cons] at hnd
    rcases List.mem_cons.mp hp with hh | ht
    · subst hh
      simp [alookup]
    · have hk : ¬ k₁ = p.1 := by
        intro he
        refine hnd.1 ?_
        rw [he]
        exact List.mem_map_of_mem Prod.fst ht
      simp only [alookup, if_neg hk]
      exact ih hnd.2 p ht

theorem bucketOrderingsSorted_keys_perm (env : SuggestEnv) (r : List (Int × Nat)) :
    ((bucketOrderingsSorted env r).map Prod.fst).Perm (r.map Prod.fst) := by
  have hperm := List.perm_insertionSort (fun p q : Int × Nat => p.2 ≤ q.2)
      (r.map (fun p => (p.1, env.ordering p.1)))
  have hm := hperm.map Prod.fst
  rw [List.map_map] at hm
  simpa using hm

/-- The labels of the suggestion segments are exactly the processed keys
with a nonzero requested count (the loop skips `sugg_request[b] == 0`). -/
theorem suggestSegs_keys_eq (env : SuggestEnv) (req : List (Int × Nat)) :
    ∀ (ks : List Int) (len calls : Nat),
      (suggestSegs env req ks len calls).1.map Prod.fst
        = ks.filter (fun b => (alookup b req).getD 0 != 0) := by
  intro ks
  induction ks with
  | nil => intro len calls; simp [suggestSegs]
  | cons b rest ih =>
    intro len calls
    by_cases hc : (alookup b req).getD 0 = 0
    · simp [suggestSegs, hc, ih, List.filter_cons, bne_iff_ne]
    · simp [suggestSegs, hc, ih, List.filter_cons, bne_iff_ne]

/-- Every segment is its bucket's own suggestion output at the requested
count — `bucketSuggs` for a trained bucket, randomized-explorer output
substituted for an untrained one — possibly followed by an explorer
top-up, which itself is explorer output. -/
theorem suggestSegs_content (env : SuggestEnv) (req : List (Int × Nat)) :
    ∀ (ks : List Int) (len calls : Nat) (p : Int × List Sugg),
      p ∈ (suggestSegs env req ks len calls).1 →
      ∃ extra : List Sugg,
        (extra = [] ∨ ∃ k m, extra = env.randExp k m)
        ∧ (env.trained p.1 = true →
            p.2 = env.bucketSuggs p.1 ((alookup p.1 req).getD 0) ++ extra)
        ∧ (env.trained p.1 = false →
            ∃ k, p.2 = env.randExp k ((alookup p.1 req).getD 0) ++ extra) := by
  intro ks
  induction ks with
  | nil => intro len calls p hp; cases hp
  | cons b rest ih =>
    intro len calls p hp
    by_cases hc : (alookup b req).getD 0 = 0
    · simp only [suggestSegs, if_pos hc] at hp
      exact ih len calls p hp
    · simp only [suggestSegs, if_neg hc] at hp
      rcases List.mem_cons.mp hp with hhd | htl
      · subst hhd
        by_cases ht : env.trained b = true
        · by_cases htop : len + (env.bucketSuggs b ((alookup b req).getD 0)).length
              < (alookup b req).getD 0
          · refine ⟨env.randExp calls ((alookup b req).getD 0
                - (len + (env.bucketSuggs b ((alookup b req).getD 0)).length)),
              Or.inr ⟨calls, _, rfl⟩, ?_, ?_⟩
            · intro _
              simp [ht, htop]
            · intro hf
              have hf' : env.trained b = false := hf
              rw [ht] at hf'
              cases hf'
          · refine ⟨[], Or.inl rfl, ?_, ?_⟩
            · intro _
              simp [ht, htop]
            · intro hf
              have hf' : env.trained b = false := hf
              rw [ht] at hf'
              cases hf'
        · have ht' : env.trained b = false := by
            cases henv : env.trained b
            · rfl
            · exact absurd henv ht
          by_cases htop : len + (env.randExp calls ((alookup b req).getD 0)).length
              < (alookup b req).getD 0
          · refine ⟨env.randExp (calls + 1) ((alookup b req).getD 0
                - (len + (env.randExp calls ((alookup b req).getD 0)).length)),
              Or.inr ⟨calls + 1, _, rfl⟩, ?_, ?_⟩
            · intro hf
              have hf' : env.trained b = true := hf
              exact absurd hf' ht
            · intro _
              exact ⟨calls, by simp [ht', htop]⟩
          · refine ⟨[], Or.inl rfl, ?_, ?_⟩
            · intro hf
              have hf' : env.trained b = true := hf
              exact absurd hf' ht
            · intro _
              exact ⟨calls, by simp [ht', htop]⟩
      · exact ih _ _ p htl

theorem bucketOrderingsSorted_shape (env : SuggestEnv) (r : List (Int × Nat)) :
    ∀ p ∈ bucketOrderingsSorted env r, p.2 = env.ordering p.1 ∧ p.1 ∈ r.map Prod.fst := by
  intro p hp
  have hperm := List.perm_insertionSort (fun p q : Int × Nat => p.2 ≤ q.2)
      (r.map (fun p => (p.1, env.ordering p.1)))
  rcases List.mem_map.mp (hperm.subset hp) with ⟨q, hq, hpq⟩
  refine ⟨?_, ?_⟩
  · rw [← hpq]
  · rw [← hpq]
    show q.1 ∈ r.map Prod.fst
    exact List.mem_map_of_mem Prod.fst hq

theorem bucketOrderingsSorted_pairwise_lt (env : SuggestEnv) (r : List (Int × Nat))
    (hnd : (r.map Prod.fst).Nodup)
    (hinj : ∀ a ∈ r.map Prod.fst, ∀ b ∈ r.map Prod.fst,
        env.ordering a = env.ordering b → a = b) :
    List.Pairwise (fun p q : Int × Nat => p.2 < q.2) (bucketOrderingsSorted env r) := by
  haveI : IsTotal (Int × Nat) (fun p q : Int × Nat => p.2 ≤ q.2) :=
    ⟨fun a b => Nat.le_total a.2 b.2⟩
  haveI : IsTrans (Int × Nat) (fun p q : Int × Nat => p.2 ≤ q.2) :=
    ⟨fun _ _ _ h₁ h₂ => le_trans h₁ h₂⟩
  have hsorted : List.Pairwise (fun p q : Int × Nat => p.2 ≤ q.2) (bucketOrderingsSorted env r) :=
    List.sorted_insertionSort _ _
  have hperm := List.perm_insertionSort (fun p q : Int × Nat => p.2 ≤ q.2)
      (r.map (fun p => (p.1, env.ordering p.1)))
  have hkeys : ((bucketOrderingsSorted env r).map Prod.fst).Nodup := by
    have hmp : ((bucketOrderingsSorted env r).map Prod.fst).Perm
        ((r.map (fun p => (p.1, env.ordering p.1))).map Prod.fst) := hperm.map _
    rw [List.map_map] at hmp
    exact (hmp.nodup_iff).mpr (by simpa using hnd)
  have hne : List.Pairwise (fun p q : Int × Nat => p.1 ≠ q.1) (bucketOrderingsSorted env r) :=
    (List.pairwise_map).mp hkeys
  refine (hsorted.and hne).imp_of_mem ?_
  intro a b ha hb hab
  obtain ⟨ha2, ha1⟩ := bucketOrderingsSorted_shape env r a ha
  obtain ⟨hb2, hb1⟩ := bucketOrderingsSorted_shape env r b hb
  have hne2 : a.2 ≠ b.2 := by
    intro he
    exact hab.2 (hinj a.1 ha1 b.1 hb1 (by rw [← ha2, ← hb2, he]))
  exact lt_of_le_of_ne hab.1 hne2

theorem bucketOrderingsSorted_keys_pairwise (env : SuggestEnv) (r : List (Int × Nat))
    (hnd : (r.map Prod.fst).Nodup)
    (hinj : ∀ a ∈ r.map Prod.fst, ∀ b ∈ r.map Prod.fst,
        env.ordering a = env.ordering b → a = b) :
    List.Pairwise (fun x y : Int => env.ordering x < env.ordering y)
      ((bucketOrderingsSorted env r).map Prod.fst) := by
  refine (List.pairwise_map).mpr ?_
  refine (bucketOrderingsSorted_pairwise_lt env r hnd hinj).imp_of_mem ?_
  intro a b ha hb hab
  obtain ⟨ha2, _⟩ := bucketOrderingsSorted_shape env r a ha
  obtain ⟨hb2, _⟩ := bucketOrderingsSorted_shape env r b hb
  rw [← ha2, ← hb2]
  exact hab

theorem bucketOrderingsSorted_perm_eq (env : SuggestEnv) {r₁ r₂ : List (Int × Nat)}
    (hp : r₁.Perm r₂) (hnd : (r₂.map Prod.fst).Nodup)
    (hinj : ∀ a ∈ r₂.map Prod.fst, ∀ b ∈ r₂.map Prod.fst,
        env.ordering a = env.ordering b → a = b) :
    bucketOrderingsSorted env r₁ = bucketOrderingsSorted env r₂ := by
  haveI : IsAntisymm (Int × Nat) (fun p q : Int × Nat => p.2 < q.2) :=
    ⟨fun a b h₁ h₂ => absurd h₂ (Nat.lt_asymm h₁)⟩
  have hnd₁ : (r₁.map Prod.fst).Nodup := ((hp.map Prod.fst).nodup_iff).mpr hnd
  have hinj₁ : ∀ a ∈ r₁.map Prod.fst, ∀ b ∈ r₁.map Prod.fst,
      env.ordering a = env.ordering b → a = b := by
    intro a ha b hb
    exact hinj a ((hp.map Prod.fst).subset ha) b ((hp.map Prod.fst).subset hb)
  have hs₁ := bucketOrderingsSorted_pairwise_lt env r₁ hnd₁ hinj₁
  have hs₂ := bucketOrderingsSorted_pairwise_lt env r₂ hnd hinj
  have hpp : (bucketOrderingsSorted env r₁).Perm (bucketOrderingsSorted env r₂) := by
    refine (List.perm_insertionSort _ _).trans (List.Perm.trans ?_
      (List.perm_insertionSort _ _).symm)
    exact hp.map _
  exact List.eq_of_perm_of_sorted hpp hs₁ hs₂

/-- C2: for every suggestion request over valid buckets (distinct request
keys, distinct display orders — a session invariant), the returned list
is the concatenation of one segment per requested bucket with a nonzero
count — the segment labels are a permutation of exactly those requested
buckets and are strictly ascending in display order, so the segments
appear in display order ascending; a trained bucket's segment is that
bucket's own suggestion output for its requested count (possibly
followed by an explorer top-up), an untrained bucket's segment is
randomized-explorer output of the requested count substituted at that
bucket's position (again possibly followed by a top-up); the
exploration-sentinel suggestions are appended last; and the returned
list is the same for any permutation of the request mapping. -/
theorem C2_suggest_ordering (env : SuggestEnv) (req req₁ : List (Int × Nat))
    (hnd : (req.map Prod.fst).Nodup)
    (hinj : ∀ a ∈ req.map Prod.fst, ∀ b ∈ req.map Prod.fst,
        env.ordering a = env.ordering b → a = b)
    (hperm : req₁.Perm req) :
    (AIModel.suggest env req₁).suggs = (AIModel.suggest env req).suggs
    ∧ ∃ segs : List (Int × List Sugg),
        (AIModel.suggest env req).suggs
            = (segs.map Prod.snd).flatten ++ randexpSuggs env req
        ∧ (segs.map Prod.fst).Perm
            (((requestBody req).filter (fun p => p.2 != 0)).map Prod.fst)
        ∧ List.Pairwise (fun p q : Int × List Sugg =>
            env.ordering p.1 < env.ordering q.1) segs
        ∧ ∀ p ∈ segs, ∃ extra : List Sugg,
            (extra = [] ∨ ∃ k m, extra = env.randExp k m)
            ∧ (env.trained p.1 = true →
                p.2 = env.bucketSuggs p.1 ((alookup p.1 (requestBody req)).getD 0) ++ extra)
            ∧ (env.trained p.1 = false →
                ∃ k, p.2 = env.randExp k ((alookup p.1 (requestBody req)).getD 0) ++ extra) := by
  have hnd₁ : (req₁.map Prod.fst).Nodup := ((hperm.map Prod.fst).nodup_iff).mpr hnd
  constructor
  · cases halo : alookup RANDOM_EXPLORE_REQUEST req with
    | some n =>
      have halo₁ : alookup RANDOM_EXPLORE_REQUEST req₁ = some n := by
        rw [alookup_perm hperm RANDOM_EXPLORE_REQUEST hnd₁]
        exact halo
      have hpe : (aerase RANDOM_EXPLORE_REQUEST req₁).Perm
          (aerase RANDOM_EXPLORE_REQUEST req) :=
        aerase_perm hperm RANDOM_EXPLORE_REQUEST hnd₁
      have hndE : ((aerase RANDOM_EXPLORE_REQUEST req).map Prod.fst).Nodup :=
        List.Nodup.sublist ((aerase_sublist RANDOM_EXPLORE_REQUEST req).map Prod.fst) hnd
      have hndE₁ : ((aerase RANDOM_EXPLORE_REQUEST req₁).map Prod.fst).Nodup :=
        List.Nodup.sublist ((aerase_sublist RANDOM_EXPLORE_REQUEST req₁).map Prod.fst) hnd₁
      have hinjE : ∀ a ∈ (aerase RANDOM_EXPLORE_REQUEST req).map Prod.fst,
          ∀ b ∈ (aerase RANDOM_EXPLORE_REQUEST req).map Prod.fst,
          env.ordering a = env.ordering b → a = b := by
        intro a ha b hb
        exact hinj a (((aerase_sublist RANDOM_EXPLORE_REQUEST req).map Prod.fst).mem ha)
          b (((aerase_sublist RANDOM_EXPLORE_REQUEST req).map Prod.fst).mem hb)
      have hsortEq := bucketOrderingsSorted_perm_eq env hpe hndE hinjE
      have hlook : ∀ b, alookup b (aerase RANDOM_EXPLORE_REQUEST req₁)
          = alookup b (aerase RANDOM_EXPLORE_REQUEST req) :=
        fun b => alookup_perm hpe b hndE₁
      simp only [AIModel.suggest, halo, halo₁]
      rw [hsortEq, suggestLoop_congr env hlook]
    | none =>
      have halo₁ : alookup RANDOM_EXPLORE_REQUEST req₁ = none := by
        rw [alookup_perm hperm RANDOM_EXPLORE_REQUEST hnd₁]
        exact halo
      have hsortEq := bucketOrderingsSorted_perm_eq env hperm hnd hinj
      have hlook : ∀ b, alookup b req₁ = alookup b req :=
        fun b => alookup_perm hperm b hnd₁
      simp only [AIModel.suggest, halo, halo₁]
      rw [hsortEq, suggestLoop_congr env hlook]
  · cases halo : alookup RANDOM_EXPLORE_REQUEST req with
    | some n =>
      have hreqB : requestBody req = aerase RANDOM_EXPLORE_REQUEST req := by
        simp [requestBody, halo]
      have hndE : ((aerase RANDOM_EXPLORE_REQUEST req).map Prod.fst).Nodup :=
        List.Nodup.sublist ((aerase_sublist RANDOM_EXPLORE_REQUEST req).map Prod.fst) hnd
      have hinjE : ∀ a ∈ (aerase RANDOM_EXPLORE_REQUEST req).map Prod.fst,
          ∀ b ∈ (aerase RANDOM_EXPLORE_REQUEST req).map Prod.fst,
          env.ordering a = env.ordering b → a = b := by
        intro a ha b hb
        exact hinj a (((aerase_sublist RANDOM_EXPLORE_REQUEST req).map Prod.fst).mem ha)
          b (((aerase_sublist RANDOM_EXPLORE_REQUEST req).map Prod.fst).mem hb)
      refine ⟨(suggestSegs env (aerase RANDOM_EXPLORE_REQUEST req)
          ((bucketOrderingsSorted env (aerase RANDOM_EXPLORE_REQUEST req)).map Prod.fst)
          0 1).1, ?_, ?_, ?_, ?_⟩
      · simp only [AIModel.suggest, randexpSuggs, halo]
        rw [suggestLoop_eq_segs]
        simp
      · rw [suggestSegs_keys_eq, hreqB]
        have hpk := bucketOrderingsSorted_keys_perm env (aerase RANDOM_EXPLORE_REQUEST req)
        have hfp := hpk.filter
          (fun b => (alookup b (aerase RANDOM_EXPLORE_REQUEST req)).getD 0 != 0)
        have hfm : ((aerase RANDOM_EXPLORE_REQUEST req).map Prod.fst).filter
              (fun b => (alookup b (aerase RANDOM_EXPLORE_REQUEST req)).getD 0 != 0)
            = ((aerase RANDOM_EXPLORE_REQUEST req).filter
                (fun p => p.2 != 0)).map Prod.fst := by
          rw [List.filter_map]
          congr 1
          refine List.filter_congr ?_
          intro p hp
          simp only [Function.comp_apply, alookup_of_mem_nodup hndE p hp, Option.getD_some]
        exact hfm ▸ hfp
      · have hkp := bucketOrderingsSorted_keys_pairwise env
          (aerase RANDOM_EXPLORE_REQUEST req) hndE hinjE
        have hsub := suggestSegs_keys_sublist env (aerase RANDOM_EXPLORE_REQUEST req)
          ((bucketOrderingsSorted env (aerase RANDOM_EXPLORE_REQUEST req)).map Prod.fst) 0 1
        have hmapped : List.Pairwise (fun x y : Int => env.ordering x < env.ordering y)
            ((suggestSegs env (aerase RANDOM_EXPLORE_REQUEST req)
              ((bucketOrderingsSorted env (aerase RANDOM_EXPLORE_REQUEST req)).map Prod.fst)
              0 1).1.map Prod.fst) :=
          List.Pairwise.sublist hsub hkp
        exact List.Pairwise.of_map Prod.fst (fun a b h => h) hmapped
      · intro p hp
        rw [hreqB]
        exact suggestSegs_content env (aerase RANDOM_EXPLORE_REQUEST req) _ 0 1 p hp
    | none =>
      have hreqB : requestBody req = req := by
        simp [requestBody, halo]
      refine ⟨(suggestSegs env req
          ((bucketOrderingsSorted env req).map Prod.fst) 0 0).1, ?_, ?_, ?_, ?_⟩
      · simp only [AIModel.suggest, randexpSuggs, halo]
        rw [suggestLoop_eq_segs]
        simp
      · rw [suggestSegs_keys_eq, hreqB]
        have hpk := bucketOrderingsSorted_keys_perm env req
        have hfp := hpk.filter (fun b => (alookup b req).getD 0 != 0)
        have hfm : (req.map Prod.fst).filter (fun b => (alookup b req).getD 0 != 0)
            = (req.filter (fun p => p.2 != 0)).map Prod.fst := by
          rw [List.filter_map]
          congr 1
          refine List.filter_congr ?_
          intro p hp
          simp only [Function.comp_apply, alookup_of_mem_nodup hnd p hp, Option.getD_some]
        exact hfm ▸ hfp
      · have hkp := bucketOrderingsSorted_keys_pairwise env req hnd hinj
        have hsub := suggestSegs_keys_sublist env req
          ((bucketOrderingsSorted env req).map Prod.fst) 0 0
        have hmapped : List.Pairwise (fun x y : Int => env.ordering x < env.ordering y)
            ((suggestSegs env req
              ((bucketOrderingsSorted env req).map Prod.fst) 0 0).1.map Prod.fst) :=
          List.Pairwise.sublist hsub hkp
        exact List.Pairwise.of_map Prod.fst (fun a b h => h) hmapped
      · intro p hp
        rw [hreqB]
        exact suggestSegs_content env req _ 0 0 p hp

/-- A small concrete environment for exercising `C2_suggest_ordering`:
bucket 1 trained, bucket 2 untrained, display orders from the bucket id. -/
def envC2W : SuggestEnv where
  ordering := fun b => b.toNat
  trained := fun b => b == 1
  bucketSuggs := fun b _ => [⟨10, b⟩]
  randExp := fun _ _ => [⟨99, 0⟩]

theorem C2_suggest_ordering_witness :
    (AIModel.suggest envC2W [(1, 1), ((-1 : Int), 1), (2, 1)]).suggs
      = (AIModel.suggest envC2W [(2, 1), (1, 1), ((-1 : Int), 1)]).suggs :=
  (C2_suggest_ordering envC2W [(2, 1), (1, 1), ((-1 : Int), 1)]
    [(1, 1), ((-1 : Int), 1), (2, 1)] (by decide) (by decide) (by decide)).1

/-! ## Discard-pile fast-forward (`aimodel/AIModel.py`, `_ff_discard` and
`_trained_buckets`; `aimodel/DiscardPile.py`, `fast_forward`)

`_ff_discard(n_ff)` collects the trained buckets (iterating the bucket
dict, i.e. in insertion order), splits `n_ff` as `n_ff // T` per bucket
plus one extra for the first `n_ff % T` buckets of that list, asks each
trained bucket for that many `discard_candidates`, and stages the
concatenation on the discard pile.  With no trained bucket it raises a
`ValueError` (the spec's `NoTrainedBuckets`). -/

structure BInfo where
  ordering : Nat
  trained : Bool
deriving DecidableEq

/-- `AIModel._trained_buckets`: the bucket ids with a trained model, in
bucket-dict insertion order. -/
def trainedBuckets (buckets : List (Int × BInfo)) : List Int :=
  (buckets.filter (fun p => p.2.trained)).map Prod.fst

/-- The split computed by `_ff_discard`: `n_discards_per_bucket` starts as
`[n_ff // T] * T` and the first `n_ff % T` entries are incremented. -/
def ffDiscardCounts (nff T : Nat) : List Nat :=
  (List.range T).map (fun i => nff / T + if i < nff % T then 1 else 0)

/-- `AIModel._ff_discard`, observed at the granularity of the
`discard_candidates(count)` requests it issues: error when no bucket is
trained, otherwise the trained buckets (insertion order) paired with the
split counts in order. -/
def ffDiscardRequests (buckets : List (Int × BInfo)) (nff : Nat) :
    Except String (List (Int × Nat)) :=
  let tb := trainedBuckets buckets
  if tb.length = 0 then
    .error "Cannot fast-forward the discard pile: no buckets with an active model."
  else
    .ok (tb.zip (ffDiscardCounts nff tb.length))

structure DiscardPileState where
  pile : List Nat
  outstandingFf : List Nat
deriving DecidableEq

/-- `AIModel._ff_discard` end to end: issue the requests, concatenate the
candidates, and stage them on the discard pile
(`DiscardPile.fast_forward` overwrites `outstanding_ff`). -/
def ffDiscard (discardCandidates : Int → Nat → List Nat)
    (buckets : List (Int × BInfo)) (pile : DiscardPileState) (nff : Nat) :
    Except String DiscardPileState :=
  match ffDiscardRequests buckets nff with
  | .error e => .error e
  | .ok reqs =>
      .ok { pile with
            outstandingFf := (reqs.map (fun p => discardCandidates p.1 p.2)).flatten }

/-- The claim's reading of the split, written from the spec words for
comparison: trained buckets are taken in *display order* and the extras
go to the first `n_ff % T` of them. -/
def ffDiscardRequestsByDisplayOrder (buckets : List (Int × BInfo)) (nff : Nat) :
    Except String (List (Int × Nat)) :=
  let tb := trainedBuckets buckets
  let tbSorted := (List.insertionSort (fun a b : Int × BInfo => a.2.ordering ≤ b.2.ordering)
      (buckets.filter (fun p => p.2.trained))).map Prod.fst
  if tb.length = 0 then .error "NoTrainedBuckets"
  else .ok (tbSorted.zip (ffDiscardCounts nff tb.length))

/-- Three trained buckets whose display order (2, 3, 1) differs from
their creation order (1, 2, 3), as produced by `swap_buckets`. -/
def bktsC4 : List (Int × BInfo) := [(1, ⟨2, true⟩), (2, ⟨0, true⟩), (3, ⟨1, true⟩)]

/-- C4 counterexample: with display order (bucket 2, bucket 3, bucket 1)
and `n_ff = 4` (so `T = 3`, one extra), the code gives the extra
candidate to bucket 1 — the first bucket in dict insertion order — while
the claim's display-order reading gives it to bucket 2; the two
assignments disagree. -/
theorem C4_ff_discard_display_order_counterexample :
    ffDiscardRequests bktsC4 4 = .ok [(1, 2), (2, 1), (3, 1)]
    ∧ ffDiscardRequestsByDisplayOrder bktsC4 4 = .ok [(2, 2), (3, 1), (1, 1)]
    ∧ alookup 1 [((1 : Int), 2), (2, 1), (3, 1)] ≠ alookup 1 [((2 : Int), 2), (3, 1), (1, 1)] := by
  refine ⟨rfl, rfl, by decide⟩

theorem sum_range_map_add_ite (a r T : Nat) :
    ((List.range T).map (fun i => a + if i < r then 1 else 0)).sum = T * a + min r T := by
  induction T with
  | zero => simp
  | succ T ih =>
    rw [List.range_succ, List.map_append, List.sum_append, ih]
    simp only [List.map_cons, List.map_nil, List.sum_cons, List.sum_nil]
    by_cases h : T < r
    · simp only [if_pos h]
      rw [Nat.succ_mul]
      omega
    · simp only [if_neg h]
      rw [Nat.succ_mul]
      omega

/-- C4 (amended): with `T ≥ 1` trained buckets, the discard-pile
fast-forward requests exactly `n_ff // T` discard candidates from every
trained bucket plus one extra from each of the first `n_ff mod T`
trained buckets taken in bucket-dict insertion order (creation order,
not display order); the requested counts sum to `n_ff`; with `T = 0` it
fails. -/
theorem C4_ff_discard_split_amended (buckets : List (Int × BInfo)) (nff : Nat) :
    (trainedBuckets buckets = [] → ∃ e, ffDiscardRequests buckets nff = .error e)
    ∧ (trainedBuckets buckets ≠ [] →
        ∃ reqs, ffDiscardRequests buckets nff = .ok reqs
          ∧ reqs.map Prod.fst = trainedBuckets buckets
          ∧ reqs.length = (trainedBuckets buckets).length
          ∧ (∀ i, i < (trainedBuckets buckets).length →
              (reqs.map Prod.snd).getD i 0
                = nff / (trainedBuckets buckets).length
                  + if i < nff % (trainedBuckets buckets).length then 1 else 0)
          ∧ (reqs.map Prod.snd).sum = nff) := by
  constructor
  · intro h
    refine ⟨"Cannot fast-forward the discard pile: no buckets with an active model.", ?_⟩
    simp [ffDiscardRequests, h]
  · intro h
    have hT : (trainedBuckets buckets).length ≠ 0 := by
      simpa [List.length_eq_zero] using h
    have hTpos : 0 < (trainedBuckets buckets).length := Nat.pos_of_ne_zero hT
    have hlen : (ffDiscardCounts nff (trainedBuckets buckets).length).length
        = (trainedBuckets buckets).length := by
      simp [ffDiscardCounts]
    refine ⟨(trainedBuckets buckets).zip
      (ffDiscardCounts nff (trainedBuckets buckets).length), ?_, ?_, ?_, ?_, ?_⟩
    · simp [ffDiscardRequests, hT]
    · exact List.map_fst_zip _ _ (le_of_eq hlen.symm)
    · rw [List.length_zip, hlen, min_self]
    · intro i hi
      rw [List.map_snd_zip _ _ (le_of_eq hlen)]
      rw [ffDiscardCounts, getD_map_lt _ 0 0 _ i (by simpa using hi)]
      have hrange : (List.range (trainedBuckets buckets).length).getD i 0 = i := by
        rw [List.getD_eq_getElem _ _ (by simpa using hi)]
        exact List.getElem_range _ _
      rw [hrange]
    · rw [List.map_snd_zip _ _ (le_of_eq hlen)]
      rw [ffDiscardCounts, sum_range_map_add_ite]
      have hmod : nff % (trainedBuckets buckets).length < (trainedBuckets buckets).length :=
        Nat.mod_lt _ hTpos
      rw [min_eq_left (le_of_lt hmod)]
      exact Nat.div_add_mod nff (trainedBuckets buckets).length

/-- Three trained buckets in creation order, `n_ff = 10`: the amended C4
split yields counts summing to 10 and the spec example shape `[4, 3, 3]`. -/
theorem C4_ff_discard_split_amended_witness :
    ∃ reqs, ffDiscardRequests [((1 : Int), ⟨0, true⟩), (2, ⟨1, true⟩), (3, ⟨2, true⟩)] 10
        = .ok reqs
      ∧ reqs.map Prod.fst
          = trainedBuckets [((1 : Int), ⟨0, true⟩), (2, ⟨1, true⟩), (3, ⟨2, true⟩)]
      ∧ (reqs.map Prod.snd).sum = 10 := by
  obtain ⟨reqs, h1, h2, _, _, h5⟩ :=
    (C4_ff_discard_split_amended [((1 : Int), ⟨0, true⟩), (2, ⟨1, true⟩), (3, ⟨2, true⟩)]
      10).2 (by decide)
  exact ⟨reqs, h1, h2, h5⟩

/-! ## Bucket state and feedback (`aimodel/Bucket.py`)

`BucketState` carries the interactive-learning state of one bucket that
`user_feedback`, `remove_images` and the transfer path touch.  The SVM
itself and float `sqrt` are opaque: `BucketEnv.train` stands for
`Bucket._train` (which retrains the classifier and recomputes member
confidences — it samples random negatives, so it is a black box here)
and `BucketEnv.sqrtq` for `math.sqrt`. -/

structure BucketState where
  images : List Nat
  imgConfidences : List ℚ
  imgConfidenceColors : List String
  negatives : List Nat
  nGoodSuggs : Nat
  nJudgedSuggs : Nat
  precision : ℚ
  svmModel : Option Nat
  activeSuggs : Option (List Sugg)
  expsearch : Bool
  expOutstandingSvm : List Nat
  expOutstandingIndex : List Nat
  goodSuggsWinSvm : List Nat
  goodSuggsWinIndex : List Nat
  allSuggsWinSvm : List Nat
  allSuggsWinIndex : List Nat
  modelConfSvm : ℚ
  modelConfIndex : ℚ
  oracleAl : Bool
  outstandingAlQueries : List Nat
  outstandingFf : List Nat
  outstandingFfConf : List ℚ
  outstandingFfConfColors : List String
  badFf : List Nat
deriving DecidableEq

structure BucketEnv where
  sqrtq : ℚ → ℚ
  train : BucketState → BucketState

/-- One sliding-window update of `Bucket.user_feedback` (per suggestion
type): drop the oldest entry, append the new totals, and recompute the
channel confidence `sqrt(window hits / window total)`, defaulting to `1`
on a zero total (the `ZeroDivisionError` branch). -/
def windowStep (sqrtq : ℚ → ℚ) (allW goodW outs good₁ : List Nat) :
    List Nat × List Nat × ℚ :=
  let allW₂ := allW.tail ++ [outs.length]
  let goodW₂ := goodW.tail ++ [(good₁.filter (fun g => outs.contains g)).length]
  let conf := if allW₂.sum = 0 then (1 : ℚ)
              else sqrtq ((goodW₂.sum : ℚ) / (allW₂.sum : ℚ))
  (allW₂, goodW₂, conf)

/-- `Bucket.user_feedback(good_suggs, neutral_assignments, bad_suggs)`:
no-op when all three lists are empty; otherwise reclassify
active-learning query answers, append members and negatives, update
counters, precision and (if sliding is on) the per-channel windows, drop
the cached active suggestions and retrain. -/
def Bucket.userFeedback (env : BucketEnv) (st : BucketState)
    (goodSuggs neutralAssignments badSuggs : List Nat) : BucketState :=
  if goodSuggs = [] ∧ neutralAssignments = [] ∧ badSuggs = [] then st
  else
    let good₁ := if st.oracleAl then
        goodSuggs.filter (fun g => !st.outstandingAlQueries.contains g) else goodSuggs
    let neutral₁ := if st.oracleAl then
        neutralAssignments ++ goodSuggs.filter (fun g => st.outstandingAlQueries.contains g)
      else neutralAssignments
    let negAl := if st.oracleAl then
        badSuggs.filter (fun b => st.outstandingAlQueries.contains b) else []
    let bad₁ := if st.oracleAl then
        badSuggs.filter (fun b => !st.outstandingAlQueries.contains b) else badSuggs
    let alQ := if st.oracleAl then [] else st.outstandingAlQueries
    let nGood := st.nGoodSuggs + good₁.length
    let nJudged := st.nJudgedSuggs + good₁.length + bad₁.length
    let wS := windowStep env.sqrtq st.allSuggsWinSvm st.goodSuggsWinSvm st.expOutstandingSvm good₁
    let wI := windowStep env.sqrtq st.allSuggsWinIndex st.goodSuggsWinIndex
        st.expOutstandingIndex good₁
    let st₁ :=
      if st.expsearch then
        { st with allSuggsWinSvm := wS.1, goodSuggsWinSvm := wS.2.1, modelConfSvm := wS.2.2,
                  allSuggsWinIndex := wI.1, goodSuggsWinIndex := wI.2.1,
                  modelConfIndex := wI.2.2 }
      else st
    env.train
      { st₁ with
        images := st.images ++ good₁ ++ neutral₁
        nGoodSuggs := nGood
        nJudgedSuggs := nJudged
        precision := if nJudged = 0 then 1 else (nGood : ℚ) / (nJudged : ℚ)
        negatives := st.negatives ++ negAl ++ bad₁
        activeSuggs := none
        outstandingAlQueries := alQ }

/-- C7: feedback with three empty lists is a no-op — the state (members,
negatives, precision, sliding-window statistics, classifier) is returned
untouched, and since this holds for *every* environment, in particular
for every retrain function, no retrain (and hence no re-sampling of
negatives) takes place. -/
theorem C7_empty_feedback_noop (env : BucketEnv) (st : BucketState) :
    Bucket.userFeedback env st [] [] [] = st := by
  simp [Bucket.userFeedback]

/-- `Bucket.remove_images(images_to_remove)`: remove each image from the
member lists (or move it from the staged fast-forward to the rejects);
an image found in neither place raises `ValueError` *mid-loop*, keeping
the deletions already performed; on success the model is retrained. -/
def Bucket.removeImages (env : BucketEnv) (st : BucketState) :
    List Nat → BucketState × Option String
  | [] => (env.train st, none)
  | img :: rest =>
    match st.images.findIdx? (fun x => x == img) with
    | some i =>
        Bucket.removeImages env
          { st with images := st.images.eraseIdx i
                    imgConfidences := st.imgConfidences.eraseIdx i
                    imgConfidenceColors := st.imgConfidenceColors.eraseIdx i } rest
    | none =>
      match st.outstandingFf.findIdx? (fun x => x == img) with
      | some i =>
          Bucket.removeImages env
            { st with badFf := st.badFf ++ [img]
                      outstandingFf := st.outstandingFf.eraseIdx i
                      outstandingFfConf := st.outstandingFfConf.eraseIdx i
                      outstandingFfConfColors := st.outstandingFfConfColors.eraseIdx i } rest
      | none => (st, some "Image not a member of the bucket, transfer aborted.")

/-- `DiscardPile.discard_images`: append to the pile. -/
def DiscardPile.discardImages (d : DiscardPileState) (imgs : List Nat) : DiscardPileState :=
  { d with pile := d.pile ++ imgs }

/-- `DiscardPile.restore_images`: remove each image from the pile, or from
the staged fast-forward (marking it seen — which may raise
`DatasetExhaustedError` before the deletion); an image found in neither
raises `ValueError` mid-loop, keeping earlier removals. -/
def DiscardPile.restoreImages (d : DiscardPileState) (seen : SeenImages) :
    List Nat → (DiscardPileState × SeenImages) × Option String
  | [] => ((d, seen), none)
  | img :: rest =>
    match d.pile.findIdx? (fun x => x == img) with
    | some i => DiscardPile.restoreImages { d with pile := d.pile.eraseIdx i } seen rest
    | none =>
      match d.outstandingFf.findIdx? (fun x => x == img) with
      | some i =>
          let su := seen.update [d.outstandingFf.getD i 0]
          if su.2 then ((d, su.1), some "DatasetExhausted")
          else
            DiscardPile.restoreImages
              { d with outstandingFf := d.outstandingFf.eraseIdx i } su.1 rest
      | none =>
          ((d, seen), some "Cannot restore an image from a discard pile that is not there.")

/-! ## AIModel.transfer_images (`aimodel/AIModel.py`, lines 707-750) -/

structure ModelState where
  buckets : List (Int × BucketState)
  discardPile : DiscardPileState
  seenImages : SeenImages
deriving DecidableEq

/-- `AIModel.transfer_images(images, bucket_src, bucket_dst, mode)`:
validate the mode, forbid copies touching the discard pile, then —
inside one `try` that maps `KeyError` to the invalid-bucket error —
remove from the source (move mode) and insert into the destination.
Errors surface together with the state as mutated so far. -/
def AIModel.transferImages (env : BucketEnv) (m : ModelState) (images : List Nat)
    (src dst : Int) (mode : String) : ModelState × Option String :=
  if ¬ (mode = "move" ∨ mode = "copy") then
    (m, some "Invalid transfer mode in transfer_images.")
  else if mode = "copy" ∧ (src = 0 ∨ dst = 0) then
    (m, some "Cannot copy images from/to the discard pile, use Move.")
  else
    let step1 : ModelState × Option String :=
      if mode = "move" then
        if src = 0 then
          let r := DiscardPile.restoreImages m.discardPile m.seenImages images
          ({ m with discardPile := r.1.1, seenImages := r.1.2 }, r.2)
        else
          match alookup src m.buckets with
          | none => (m, some "Invalid bucket key, could not retrieve the bucket.")
          | some b =>
            let r := Bucket.removeImages env b images
            ({ m with buckets := aupdate src (fun _ => r.1) m.buckets }, r.2)
      else (m, none)
    match step1 with
    | (m₁, some e) => (m₁, some e)
    | (m₁, none) =>
      if dst = 0 then
        ({ m₁ with discardPile := DiscardPile.discardImages m₁.discardPile images }, none)
      else
        match alookup dst m₁.buckets with
        | none => (m₁, some "Invalid bucket key, could not retrieve the bucket.")
        | some b =>
          ({ m₁ with
             buckets := aupdate dst (fun _ => Bucket.userFeedback env b [] images [])
               m₁.buckets }, none)

/-- A concrete trained bucket holding images 10 and 11. -/
def bucketC8 : BucketState where
  images := [10, 11]
  imgConfidences := [1, 1]
  imgConfidenceColors := ["c", "c"]
  negatives := []
  nGoodSuggs := 0
  nJudgedSuggs := 0
  precision := 1
  svmModel := some 1
  activeSuggs := none
  expsearch := false
  expOutstandingSvm := []
  expOutstandingIndex := []
  goodSuggsWinSvm := []
  goodSuggsWinIndex := []
  allSuggsWinSvm := []
  allSuggsWinIndex := []
  modelConfSvm := 1
  modelConfIndex := 1
  oracleAl := false
  outstandingAlQueries := []
  outstandingFf := []
  outstandingFfConf := []
  outstandingFfConfColors := []
  badFf := []

def envC8 : BucketEnv := ⟨fun q => q, fun st => st⟩

def modelC8 : ModelState := ⟨[(1, bucketC8)], ⟨[], []⟩, ⟨∅, 100⟩⟩

/-- C8 counterexample: moving image 10 from bucket 1 to the unknown
bucket 99 raises the invalid-bucket error, yet image 10 has already been
removed from bucket 1 — the error leaves a partial state change
observable, so `transfer_images` does not fail atomically. -/
theorem C8_transfer_atomicity_counterexample :
    ((AIModel.transferImages envC8 modelC8 [10] 1 99 "move").2).isSome = true
    ∧ ((alookup 1 (AIModel.transferImages envC8 modelC8 [10] 1 99 "move").1.buckets).map
        (fun b => b.images)) = some [11]
    ∧ (alookup 1 modelC8.buckets).map (fun b => b.images) = some [10, 11] := by
  refine ⟨rfl, rfl, rfl⟩

/-- C8 (amended): `transfer_images` in move mode removes the items from
the source bucket *before* validating the destination; with an unknown
destination bucket ID the call reports the invalid-bucket error but the
removal persists — the source bucket is left in its post-removal state,
not restored. -/
theorem C8_transfer_partial_state_amended (env : BucketEnv) (m : ModelState)
    (images : List Nat) (src dst : Int) (b : BucketState)
    (hsrc : src ≠ 0) (hb : alookup src m.buckets = some b)
    (hdst0 : dst ≠ 0) (hdst : alookup dst m.buckets = none)
    (hrm : (Bucket.removeImages env b images).2 = none) :
    (AIModel.transferImages env m images src dst "move").2.isSome = true
    ∧ alookup src (AIModel.transferImages env m images src dst "move").1.buckets
        = some (Bucket.removeImages env b images).1 := by
  have hds : dst ≠ src := by
    intro h
    rw [h, hb] at hdst
    cases hdst
  have hlook : alookup dst (aupdate src
      (fun _ => (Bucket.removeImages env b images).1) m.buckets) = none := by
    rw [alookup_aupdate_other hds]
    exact hdst
  have hlook₂ : alookup src (aupdate src
      (fun _ => (Bucket.removeImages env b images).1) m.buckets)
      = some (Bucket.removeImages env b images).1 := by
    rw [alookup_aupdate_self, hb]
    rfl
  constructor
  · simp [AIModel.transferImages, hb, hrm, hsrc, hdst0, hlook]
  · simp [AIModel.transferImages, hb, hrm, hsrc, hdst0, hlook, hlook₂]

theorem C8_transfer_partial_state_amended_witness :
    (AIModel.transferImages envC8 modelC8 [10] 1 99 "move").2.isSome = true
    ∧ alookup 1 (AIModel.transferImages envC8 modelC8 [10] 1 99 "move").1.buckets
        = some (Bucket.removeImages envC8 bucketC8 [10]).1 :=
  C8_transfer_partial_state_amended envC8 modelC8 [10] 1 99 bucketC8
    (by decide) rfl (by decide) rfl rfl

/-! ## CollectionIndex.distances (`data/CollectionIndex.py`, lines 76-104)

The product-quantization index: `index i s` is item `i`'s cluster code in
subspace `s` and `distanceMatrix s c₁ c₂` the precomputed
centroid-to-centroid distance; `distances` accumulates, for every pair,
the per-subspace centroid distances.  The source raises
`ValueError("No query images provided.")` only when the *first* list is
empty (`n_queries == 0`); an empty second list flows through and yields
a `len(img1) x 0` matrix. -/

structure CollectionIndex where
  nSubmat : Nat
  index : Nat → Nat → Nat
  distanceMatrix : Nat → Nat → Nat → ℚ

/-- `CollectionIndex.distances(img1, img2)`. -/
def CollectionIndex.distances (ci : CollectionIndex) (img1 img2 : List Nat) :
    Except String (List (List ℚ)) :=
  if img1.length = 0 then .error "No query images provided."
  else
    .ok (img1.map (fun i => img2.map (fun j =>
      ((List.range ci.nSubmat).map
        (fun s => ci.distanceMatrix s (ci.index i s) (ci.index j s))).sum)))

/-- A one-subspace index over a two-item collection. -/
def ciC9 : CollectionIndex := ⟨1, fun i _ => i % 2, fun _ c₁ c₂ => (c₁ : ℚ) + c₂⟩

/-- C9 counterexample: the claim says `distances` fails whenever *either*
input set is empty, but an empty second set does not fail — it returns
the `1 x 0` matrix `[[]]`. -/
theorem C9_distances_empty_counterexample :
    CollectionIndex.distances ciC9 [0] [] = .ok [[]] := rfl

/-- C9 (amended): `distances(setA, setB)` fails with the empty-query
error exactly when `setA` is empty; otherwise it returns a
`|setA| x |setB|` matrix (an empty `setB` giving a `|setA| x 0` matrix)
whose `(i, j)` entry is the sum over the subspaces of the precomputed
centroid distance indexed by item `i`'s and item `j`'s per-subspace
cluster codes. -/
theorem C9_distances_amended (ci : CollectionIndex) (img1 img2 : List Nat) :
    (img1 = [] → ∃ e, CollectionIndex.distances ci img1 img2 = .error e)
    ∧ (img1 ≠ [] →
        ∃ M, CollectionIndex.distances ci img1 img2 = .ok M
          ∧ M.length = img1.length
          ∧ (∀ row ∈ M, row.length = img2.length)
          ∧ (∀ i j, i < img1.length → j < img2.length →
              (M.getD i []).getD j 0
                = ((List.range ci.nSubmat).map
                    (fun s => ci.distanceMatrix s (ci.index (img1.getD i 0) s)
                      (ci.index (img2.getD j 0) s))).sum)) := by
  constructor
  · intro h
    exact ⟨"No query images provided.", by simp [CollectionIndex.distances, h]⟩
  · intro h
    have hlen : ¬ img1.length = 0 := by
      simpa [List.length_eq_zero] using h
    refine ⟨img1.map (fun i => img2.map (fun j =>
        ((List.range ci.nSubmat).map
          (fun s => ci.distanceMatrix s (ci.index i s) (ci.index j s))).sum)),
      ?_, ?_, ?_, ?_⟩
    · simp [CollectionIndex.distances, hlen]
    · simp
    · intro row hrow
      rcases List.mem_map.mp hrow with ⟨i, _, hi⟩
      rw [← hi]
      simp
    · intro i j hi hj
      rw [getD_map_lt _ 0 [] img1 i hi]
      rw [getD_map_lt _ 0 0 img2 j hj]

theorem C9_distances_amended_witness :
    ∃ M, CollectionIndex.distances ciC9 [0, 1] [1] = .ok M
      ∧ M.length = 2
      ∧ (∀ row ∈ M, row.length = 1) := by
  obtain ⟨M, h1, h2, h3, _⟩ := (C9_distances_amended ciC9 [0, 1] [1]).2 (by decide)
  exact ⟨M, h1, h2, h3⟩

/-! ## AIModel.user_feedback (`aimodel/AIModel.py`, lines 551-640)

The orchestrator splits incoming feedback bucket-wise into good /
neutral / bad bins, accumulates the discarded images and the seen list,
then dispatches to the buckets, the discard pile and the seen set.
`outstanding` is the previous round's item-to-bucket suggestion mapping
(`outstanding_suggs`; exploration suggestions are recorded under the
discard-pile id 0, which is falsy in Python, hence `truthyBucket`). -/

structure Bins where
  good : List Nat
  neutral : List Nat
  bad : List Nat
deriving DecidableEq

structure UFState where
  bins : List (Int × Bins)
  discarded : List Nat
  seen : List Nat
deriving DecidableEq

/-- Python truthiness of `suggested_bucket`: `None` and the discard-pile
id `0` (the exploration marker in `outstanding_suggs`) are falsy, real
bucket ids (≥ 1) are truthy. -/
def truthyBucket : Option Int → Bool
  | none => false
  | some b => b != 0

/-- Append an image to a bin's bad / neutral / good list
(`bucketwise_feedback[b]["bad"].append(image)` and friends). -/
def Bins.addBad (image : Nat) (bb : Bins) : Bins := { bb with bad := bb.bad ++ [image] }

def Bins.addNeutral (image : Nat) (bb : Bins) : Bins :=
  { bb with neutral := bb.neutral ++ [image] }

def Bins.addGood (image : Nat) (bb : Bins) : Bins := { bb with good := bb.good ++ [image] }

/-- The loop body of `AIModel.user_feedback` for one feedback entry
`(image, assigned)`: a null assignment is skipped; otherwise the entry
is classified against the outstanding suggestion for the image and the
image is appended to the seen list. -/
def AIModel.userFeedbackStep (outstanding : List (Nat × Int)) (st : UFState)
    (entry : Nat × Option Int) : UFState :=
  match entry.2 with
  | none => st
  | some assigned =>
    let image := entry.1
    let suggested := alookup image outstanding
    if assigned = 0 then
      let st₁ := { st with discarded := st.discarded ++ [image] }
      let st₂ :=
        if truthyBucket suggested then
          { st₁ with bins := aupdate (suggested.getD 0) (Bins.addBad image) st₁.bins }
        else st₁
      { st₂ with seen := st₂.seen ++ [image] }
    else if truthyBucket suggested = false then
      { st with bins := aupdate assigned (Bins.addNeutral image) st.bins,
                seen := st.seen ++ [image] }
    else if suggested = some assigned then
      { st with bins := aupdate assigned (Bins.addGood image) st.bins,
                seen := st.seen ++ [image] }
    else
      { st with bins := aupdate (suggested.getD 0) (Bins.addBad image)
                  (aupdate assigned (Bins.addNeutral image) st.bins),
                seen := st.seen ++ [image] }

/-- The classification loop of `AIModel.user_feedback`: bins initialised
empty for every bucket key, then every feedback entry processed in
order. -/
def AIModel.userFeedbackRun (outstanding : List (Nat × Int)) (bucketKeys : List Int)
    (feedback : List (Nat × Option Int)) : UFState :=
  feedback.foldl (AIModel.userFeedbackStep outstanding)
    ⟨bucketKeys.map (fun b => (b, ⟨[], [], []⟩)), [], []⟩

/-- `AIModel.user_feedback` end to end: classify, dispatch each bucket's
bins to `Bucket.user_feedback`, discard the discarded images, and update
the seen set (whose exhaustion flag is surfaced). -/
def AIModel.userFeedback (env : BucketEnv) (m : ModelState)
    (outstanding : List (Nat × Int)) (feedback : List (Nat × Option Int)) :
    ModelState × Bool :=
  let st := AIModel.userFeedbackRun outstanding (m.buckets.map Prod.fst) feedback
  let buckets₁ := st.bins.foldl
    (fun acc p => aupdate p.1
      (fun bs => Bucket.userFeedback env bs p.2.good p.2.neutral p.2.bad) acc)
    m.buckets
  let pile₁ := DiscardPile.discardImages m.discardPile st.discarded
  let su := m.seenImages.update st.seen
  ({ m with buckets := buckets₁, discardPile := pile₁, seenImages := su.1 }, su.2)

/-- The bins recorded for bucket `b` (Python `bucketwise_feedback[b]`). -/
def binsOf (st : UFState) (b : Int) : Option Bins := alookup b st.bins

theorem userFeedbackStep_seen (o : List (Nat × Int)) (st : UFState) (img : Nat) (a' : Int) :
    (AIModel.userFeedbackStep o st (img, some a')).seen = st.seen ++ [img] := by
  simp only [AIModel.userFeedbackStep]
  by_cases h0 : a' = 0
  · simp only [if_pos h0]
    by_cases ht : truthyBucket (alookup img o) <;> simp [ht]
  · simp only [if_neg h0]
    by_cases ht : truthyBucket (alookup img o) = false
    · simp [ht]
    · by_cases he : alookup img o = some a'
      · simp [ht, he]
        split <;> rfl
      · simp [ht, he]

theorem userFeedbackStep_seen_mono (o : List (Nat × Int)) (st : UFState)
    (e : Nat × Option Int) (x : Nat) (hx : x ∈ st.seen) :
    x ∈ (AIModel.userFeedbackStep o st e).seen := by
  obtain ⟨img, a⟩ := e
  cases a with
  | none => exact hx
  | some a' =>
    rw [userFeedbackStep_seen]
    exact List.mem_append_left _ hx

theorem foldl_userFeedbackStep_seen_mem (o : List (Nat × Int))
    (feedback : List (Nat × Option Int)) :
    ∀ (st : UFState) (img : Nat) (a : Int),
      ((img, some a) ∈ feedback ∨ img ∈ st.seen) →
      img ∈ (feedback.foldl (AIModel.userFeedbackStep o) st).seen := by
  induction feedback with
  | nil =>
    intro st img a h
    rcases h with h | h
    · cases h
    · exact h
  | cons e rest ih =>
    intro st img a h
    rcases h with h | h
    · rcases List.mem_cons.mp h with he | hm
      · refine ih _ img a (Or.inr ?_)
        rw [← he, userFeedbackStep_seen]
        simp
      · exact ih _ img a (Or.inl hm)
    · exact ih _ img a (Or.inr (userFeedbackStep_seen_mono o st e img h))

/-- C1: the classification table of `AIModel.user_feedback`.  For a
feedback entry with a non-null assigned target: a null entry is skipped;
every classified image is appended to the seen list (also across a whole
feedback batch); discard with no (or exploration-marked) outstanding
suggestion yields discard only; discard with an outstanding suggestion
for bucket B yields discard plus a bad mark against B; assignment to
bucket C with no suggestion yields a neutral assignment to C; assignment
to the suggested bucket yields a good mark; and assignment to C while B
≠ C was suggested yields neutral-to-C plus bad-against-B, all other
buckets' bins untouched. -/
theorem C1_user_feedback_classification :
    (∀ (o : List (Nat × Int)) (st : UFState) (img : Nat),
        AIModel.userFeedbackStep o st (img, none) = st)
    ∧ (∀ (o : List (Nat × Int)) (st : UFState) (img : Nat) (a : Option Int), a ≠ none →
        (AIModel.userFeedbackStep o st (img, a)).seen = st.seen ++ [img])
    ∧ (∀ (o : List (Nat × Int)) (st : UFState) (img : Nat),
        truthyBucket (alookup img o) = false →
        AIModel.userFeedbackStep o st (img, some 0)
          = { st with discarded := st.discarded ++ [img], seen := st.seen ++ [img] })
    ∧ (∀ (o : List (Nat × Int)) (st : UFState) (img : Nat) (b : Int),
        alookup img o = some b → b ≠ 0 →
        (AIModel.userFeedbackStep o st (img, some 0)).discarded = st.discarded ++ [img]
        ∧ binsOf (AIModel.userFeedbackStep o st (img, some 0)) b
            = (binsOf st b).map (Bins.addBad img)
        ∧ (∀ b', b' ≠ b → binsOf (AIModel.userFeedbackStep o st (img, some 0)) b'
            = binsOf st b'))
    ∧ (∀ (o : List (Nat × Int)) (st : UFState) (img : Nat) (c : Int),
        c ≠ 0 → truthyBucket (alookup img o) = false →
        (AIModel.userFeedbackStep o st (img, some c)).discarded = st.discarded
        ∧ binsOf (AIModel.userFeedbackStep o st (img, some c)) c
            = (binsOf st c).map (Bins.addNeutral img)
        ∧ (∀ b', b' ≠ c → binsOf (AIModel.userFeedbackStep o st (img, some c)) b'
            = binsOf st b'))
    ∧ (∀ (o : List (Nat × Int)) (st : UFState) (img : Nat) (c : Int),
        c ≠ 0 → alookup img o = some c →
        (AIModel.userFeedbackStep o st (img, some c)).discarded = st.discarded
        ∧ binsOf (AIModel.userFeedbackStep o st (img, some c)) c
            = (binsOf st c).map (Bins.addGood img)
        ∧ (∀ b', b' ≠ c → binsOf (AIModel.userFeedbackStep o st (img, some c)) b'
            = binsOf st b'))
    ∧ (∀ (o : List (Nat × Int)) (st : UFState) (img : Nat) (c b : Int),
        c ≠ 0 → b ≠ 0 → b ≠ c → alookup img o = some b →
        (AIModel.userFeedbackStep o st (img, some c)).discarded = st.discarded
        ∧ binsOf (AIModel.userFeedbackStep o st (img, some c)) c
            = (binsOf st c).map (Bins.addNeutral img)
        ∧ binsOf (AIModel.userFeedbackStep o st (img, some c)) b
            = (binsOf st b).map (Bins.addBad img)
        ∧ (∀ b', b' ≠ c → b' ≠ b → binsOf (AIModel.userFeedbackStep o st (img, some c)) b'
            = binsOf st b'))
    ∧ (∀ (o : List (Nat × Int)) (bucketKeys : List Int)
        (feedback : List (Nat × Option Int)) (img : Nat) (a : Int),
        (img, some a) ∈ feedback →
        img ∈ (AIModel.userFeedbackRun o bucketKeys feedback).seen) := by
  refine ⟨?_, ?_, ?_, ?_, ?_, ?_, ?_, ?_⟩
  · intro o st img
    rfl
  · intro o st img a ha
    cases a with
    | none => exact absurd rfl ha
    | some a' => exact userFeedbackStep_seen o st img a'
  · intro o st img ht
    simp [AIModel.userFeedbackStep, ht]
  · intro o st img b hb hb0
    have htb : truthyBucket (some b) = true := by
      simp [truthyBucket, hb0]
    have hstep : AIModel.userFeedbackStep o st (img, some 0)
        = { st with bins := aupdate b (Bins.addBad img) st.bins,
                    discarded := st.discarded ++ [img],
                    seen := st.seen ++ [img] } := by
      simp [AIModel.userFeedbackStep, hb, htb]
    refine ⟨?_, ?_, ?_⟩
    · rw [hstep]
    · rw [hstep]
      exact alookup_aupdate_self b (Bins.addBad img) st.bins
    · intro b' hb'
      rw [hstep]
      exact alookup_aupdate_other hb' (Bins.addBad img) st.bins
  · intro o st img c hc0 ht
    have hstep : AIModel.userFeedbackStep o st (img, some c)
        = { st with bins := aupdate c (Bins.addNeutral img) st.bins,
                    seen := st.seen ++ [img] } := by
      simp [AIModel.userFeedbackStep, ht, hc0]
    refine ⟨?_, ?_, ?_⟩
    · rw [hstep]
    · rw [hstep]
      exact alookup_aupdate_self c (Bins.addNeutral img) st.bins
    · intro b' hb'
      rw [hstep]
      exact alookup_aupdate_other hb' (Bins.addNeutral img) st.bins
  · intro o st img c hc0 hs
    have htc : truthyBucket (some c) = true := by
      simp [truthyBucket, hc0]
    have hstep : AIModel.userFeedbackStep o st (img, some c)
        = { st with bins := aupdate c (Bins.addGood img) st.bins,
                    seen := st.seen ++ [img] } := by
      simp [AIModel.userFeedbackStep, hc0, hs, htc]
    refine ⟨?_, ?_, ?_⟩
    · rw [hstep]
    · rw [hstep]
      exact alookup_aupdate_self c (Bins.addGood img) st.bins
    · intro b' hb'
      rw [hstep]
      exact alookup_aupdate_other hb' (Bins.addGood img) st.bins
  · intro o st img c b hc0 hb0 hbc hs
    have htb : truthyBucket (some b) = true := by
      simp [truthyBucket, hb0]
    have hstep : AIModel.userFeedbackStep o st (img, some c)
        = { st with bins := aupdate b (Bins.addBad img)
                      (aupdate c (Bins.addNeutral img) st.bins),
                    seen := st.seen ++ [img] } := by
      simp [AIModel.userFeedbackStep, hc0, hs, htb, hbc]
    refine ⟨?_, ?_, ?_, ?_⟩
    · rw [hstep]
    · rw [hstep]
      show alookup c (aupdate b (Bins.addBad img) (aupdate c (Bins.addNeutral img) st.bins))
          = (binsOf st c).map (Bins.addNeutral img)
      rw [alookup_aupdate_other (Ne.symm hbc), alookup_aupdate_self]
      rfl
    · rw [hstep]
      show alookup b (aupdate b (Bins.addBad img) (aupdate c (Bins.addNeutral img) st.bins))
          = (binsOf st b).map (Bins.addBad img)
      rw [alookup_aupdate_self, alookup_aupdate_other hbc (Bins.addNeutral img) st.bins]
      rfl
    · intro b' hb'c hb'b
      rw [hstep]
      show alookup b' (aupdate b (Bins.addBad img) (aupdate c (Bins.addNeutral img) st.bins))
          = binsOf st b'
      rw [alookup_aupdate_other hb'b, alookup_aupdate_other hb'c]
      rfl
  · intro o bucketKeys feedback img a hmem
    exact foldl_userFeedbackStep_seen_mem o feedback _ img a (Or.inl hmem)

/-- Witness for C1: image 7 was outstanding for bucket 2 but the user
assigns it to bucket 3 — the step records a neutral assignment to 3 and
a bad suggestion against 2, leaves bucket 5's bins and the discard list
untouched, and marks 7 seen. -/
theorem C1_user_feedback_classification_witness :
    (AIModel.userFeedbackStep [(7, 2)]
        ⟨[(2, ⟨[], [], []⟩), (3, ⟨[], [], []⟩), (5, ⟨[], [], []⟩)], [], []⟩
        (7, some 3)).discarded = []
    ∧ binsOf (AIModel.userFeedbackStep [(7, 2)]
        ⟨[(2, ⟨[], [], []⟩), (3, ⟨[], [], []⟩), (5, ⟨[], [], []⟩)], [], []⟩
        (7, some 3)) 3
        = (binsOf ⟨[(2, ⟨[], [], []⟩), (3, ⟨[], [], []⟩), (5, ⟨[], [], []⟩)], [], []⟩ 3).map
            (Bins.addNeutral 7)
    ∧ binsOf (AIModel.userFeedbackStep [(7, 2)]
        ⟨[(2, ⟨[], [], []⟩), (3, ⟨[], [], []⟩), (5, ⟨[], [], []⟩)], [], []⟩
        (7, some 3)) 2
        = (binsOf ⟨[(2, ⟨[], [], []⟩), (3, ⟨[], [], []⟩), (5, ⟨[], [], []⟩)], [], []⟩ 2).map
            (Bins.addBad 7)
    ∧ (AIModel.userFeedbackStep [(7, 2)]
        ⟨[(2, ⟨[], [], []⟩), (3, ⟨[], [], []⟩), (5, ⟨[], [], []⟩)], [], []⟩
        (7, some 3)).seen = [7] := by
  have h := C1_user_feedback_classification.2.2.2.2.2.2.1 [(7, 2)]
    ⟨[(2, ⟨[], [], []⟩), (3, ⟨[], [], []⟩), (5, ⟨[], [], []⟩)], [], []⟩
    7 3 2 (by decide) (by decide) (by decide) (by decide)
  have hseen := C1_user_feedback_classification.2.1 [(7, 2)]
    ⟨[(2, ⟨[], [], []⟩), (3, ⟨[], [], []⟩), (5, ⟨[], [], []⟩)], [], []⟩
    7 (some 3) (by simp)
  exact ⟨h.1, h.2.1, h.2.2.1, by rw [hseen]; rfl⟩
